import Mathlib

/-!
hetzner-dnsapi-client: a verification development over `main.go`.

Go strings are modelled by `String` (the strings that are valid UTF-8); `len` of a Go string
is its number of bytes (`String.utf8ByteSize`).  Go `int` values are modelled by `Int` (the
only arithmetic is `len(arr) - 1` and `len(arr) - 2`, far from the 64-bit range).  Go slices
carry their backing array, so that the capacity rule of a slice expression is the one of the
language.  The HTTP and JSON libraries are parameters of the program (`Env`); a request is
recorded at the call of `DNSClient.fetch`, whether or not `http.NewRequest` then accepts it.
-/

set_option autoImplicit false

namespace HetznerDNS

/-! ## Go runtime: strings, slices, panics -/

/-- Run-time panics the program can raise. -/
inductive GoPanic where
  | sliceBoundsOutOfRange
  | indexOutOfRange
  | nilDereference
  deriving DecidableEq, Repr

/-- How a piece of the program ends: it returns a value, it stops in `log.Fatal...`
(message logged, exit status 1), or it panics. -/
inductive Outcome (α : Type) where
  | ok (a : α)
  | fatal (msg : String)
  | panic (p : GoPanic)
  deriving DecidableEq, Repr

/-- Go `len(s)` for a string: the number of bytes. -/
def goLen (s : String) : Int := (s.utf8ByteSize : Int)

/-- A Go slice over a backing array that starts at the slice's first element:
`backing.length` is the capacity, `len` the length. -/
structure GoSlice (α : Type) where
  backing : List α
  len : Nat
  deriving DecidableEq, Repr

namespace GoSlice

variable {α : Type}

/-- Capacity of the slice. -/
def cap (s : GoSlice α) : Nat := s.backing.length

/-- Elements of the slice, in order. -/
def elems (s : GoSlice α) : List α := s.backing.take s.len

/-- Go `len(s)` as an `int`. -/
def length (s : GoSlice α) : Int := (s.len : Int)

/-- Go `s[lo:]`: panics unless `0 <= lo <= len(s)`. -/
def sliceFrom (s : GoSlice α) (lo : Int) : Outcome (GoSlice α) :=
  if 0 ≤ lo ∧ lo ≤ (s.len : Int) then
    .ok { backing := s.backing.drop lo.toNat, len := s.len - lo.toNat }
  else .panic .sliceBoundsOutOfRange

/-- Go `s[:hi]`: panics unless `0 <= hi <= cap(s)`. -/
def sliceTo (s : GoSlice α) (hi : Int) : Outcome (GoSlice α) :=
  if 0 ≤ hi ∧ hi ≤ (s.cap : Int) then
    .ok { backing := s.backing, len := hi.toNat }
  else .panic .sliceBoundsOutOfRange

/-- Go `s[i]`: panics unless `0 <= i < len(s)`. -/
def index (s : GoSlice α) (i : Int) : Outcome α :=
  if 0 ≤ i ∧ i < (s.len : Int) then
    match s.backing.get? i.toNat with
    | some a => .ok a
    | none => .panic .indexOutOfRange
  else .panic .indexOutOfRange

end GoSlice

/-- Labels of a character list cut at every `'.'`; never empty. -/
def splitDots : List Char → List (List Char)
  | [] => [[]]
  | c :: cs =>
    if c = '.' then [] :: splitDots cs
    else
      match splitDots cs with
      | [] => [[c]]
      | l :: ls => (c :: l) :: ls

/-- Go `strings.Split(s, ".")`: all substrings between the separators, in a fresh slice
whose length and capacity are both the number of substrings. -/
def stringsSplitDot (s : String) : GoSlice String :=
  let labels := (splitDots s.data).map String.mk
  { backing := labels, len := labels.length }

/-- Go `strings.Join(elems, sep)`. -/
def stringsJoin (elems : List String) (sep : String) : String :=
  match elems with
  | [] => ""
  | [e] => e
  | e :: rest => rest.foldl (fun b s => b ++ sep ++ s) e

/-! ## Domain splitting (lines 188-190 of `main`) -/

/-- The three statements of `main` that cut the `-domain` flag into zone and record name:
`arr := strings.Split(domain, ".")`,
`zone := fmt.Sprintf("%s.%s", arr[len(arr)-2:][0], arr[len(arr)-1:][0])`,
`name := strings.Join(arr[:len(arr)-1][:len(arr)-2], ".")`. -/
def splitDomain (domain : String) : Outcome (String × String) :=
  let arr := stringsSplitDot domain
  match arr.sliceFrom (arr.length - 2) with
  | .fatal m => .fatal m
  | .panic p => .panic p
  | .ok s2 =>
  match s2.index 0 with
  | .fatal m => .fatal m
  | .panic p => .panic p
  | .ok a =>
  match arr.sliceFrom (arr.length - 1) with
  | .fatal m => .fatal m
  | .panic p => .panic p
  | .ok s1 =>
  match s1.index 0 with
  | .fatal m => .fatal m
  | .panic p => .panic p
  | .ok b =>
  let zone := a ++ "." ++ b
  match arr.sliceTo (arr.length - 1) with
  | .fatal m => .fatal m
  | .panic p => .panic p
  | .ok t1 =>
  match t1.sliceTo (arr.length - 2) with
  | .fatal m => .fatal m
  | .panic p => .panic p
  | .ok t2 =>
  let name := stringsJoin t2.elems "."
  .ok (zone, name)

/-- The dot-separated labels of a domain string, as `strings.Split` lists them. -/
def labelsOf (domain : String) : List String := (stringsSplitDot domain).elems


/-! ## Data model (lines 19-65 and 96-117) -/

/-- The `zone_type` object of a zone; `Prices` is an `interface{}`: absent, or the JSON it held. -/
structure ZoneType where
  ID : String
  Name : String
  Description : String
  Prices : Option String
  deriving DecidableEq, Repr

/-- The `txt_verification` object of a zone. -/
structure TxtVerification where
  Name : String
  Token : String
  deriving DecidableEq, Repr

/-- One element of `ZoneResponse.Zones`. -/
structure Zone where
  ID : String
  Name : String
  TTL : Int
  Registrar : String
  LegacyDNSHost : String
  LegacyNs : List String
  Ns : List String
  Created : String
  Verified : String
  Modified : String
  Project : String
  Owner : String
  Permission : String
  ZoneType : ZoneType
  Status : String
  Paused : Bool
  IsSecondaryDNS : Bool
  TxtVerification : TxtVerification
  RecordsCount : Int
  deriving DecidableEq, Repr

/-- The `meta.pagination` object of the zone listing. -/
structure Pagination where
  Page : Int
  PerPage : Int
  PreviousPage : Int
  NextPage : Int
  LastPage : Int
  TotalEntries : Int
  deriving DecidableEq, Repr

/-- ZoneResponse - struct for all Zones. -/
structure ZoneResponse where
  Zones : List Zone
  Meta : Pagination
  deriving DecidableEq, Repr

/-- DNSClient - simple client for hetzner dns. -/
structure DNSClient where
  Token : String
  deriving DecidableEq, Repr

/-- Record - a single dns record. -/
structure Record where
  ZoneID : String
  RecordType : String
  Name : String
  Value : String
  TTL : Int
  deriving DecidableEq, Repr

/-- One element of `RecordResponse.Records` (`Type_` is the field `Type`, a reserved word here). -/
structure RecordEntry where
  ID : String
  Type_ : String
  Name : String
  Value : String
  ZoneID : String
  Created : String
  Modified : String
  TTL : Int
  deriving DecidableEq, Repr

/-- RecordResponse - response of the hetzner api for all records. -/
structure RecordResponse where
  Records : List RecordEntry
  deriving DecidableEq, Repr

/-! ## The world the program runs in -/

/-- One call of `DNSClient.fetch`: the method, the `function` argument, the URL built from it,
the `Auth-API-Token` header and the body (`none` for a nil body).  `β` is the type of message
bodies (JSON text in the program). -/
structure Request (β : Type) where
  method : String
  function : String
  url : String
  token : String
  body : Option β

/-- The libraries `main.go` calls, over a network state `σ` and message bodies `β`:
`http.NewRequest` (the error it returns for a method and a URL, if any; nothing is sent then),
`client.Do` with `ioutil.ReadAll` (an error, or the response body, and the next network state)
and `encoding/json` at the three types the program uses (a failed `json.Unmarshal` leaves the
zero value, its error is dropped by the program). -/
structure Env (σ β : Type) where
  newRequest : String → String → Option String
  httpDo : σ → Request β → Except String β × σ
  emptyBody : β
  marshalRecord : Record → β
  unmarshalZones : β → ZoneResponse
  unmarshalRecords : β → RecordResponse

/-- Program state: the global `TOKEN`, the network, the calls of `fetch` made so far (oldest
first) and the lines printed by `fmt.Println`. -/
structure World (σ β : Type) where
  TOKEN : String
  net : σ
  calls : List (Request β)
  stdout : List String

/-- State in which `main` starts: `var TOKEN string = ""`, nothing called or printed yet. -/
def World.init {σ β : Type} (net : σ) : World σ β :=
  { TOKEN := "", net := net, calls := [], stdout := [] }

section Program

variable {σ β : Type}

/-! ## `fetch`, `getZoneID`, `checkExisting`, `setRecord`, `unsetRecord` -/

/-- The URL `fetch` builds: `fmt.Sprintf("https://dns.hetzner.com/api/v1/%s", function)`. -/
def apiURL (function : String) : String :=
  "https://dns.hetzner.com/api/v1/" ++ function

/-- The request `fetch` builds: `http.NewRequest(method, url, body)` with the header
`Auth-API-Token` set to the client's token. -/
def apiRequest (token method function : String) (body : Option β) : Request β :=
  { method := method, function := function, url := apiURL function, token := token,
    body := body }

/-- Go `func (c DNSClient) fetch(method, function, body) (string, error)`.  If
`http.NewRequest` fails the result is `("", err)` and nothing reaches the network (lines
69-72); if `client.Do` fails the result is `("", err)` (lines 74-77); otherwise it is
`(body of the response, nil)`.  The call is recorded in `calls` in all three cases. -/
def DNSClient.fetch (env : Env σ β) (c : DNSClient) (method function : String)
    (body : Option β) (w : World σ β) : (β × Option String) × World σ β :=
  let req := apiRequest c.Token method function body
  match env.newRequest method req.url with
  | some err => ((env.emptyBody, some err), { w with calls := w.calls ++ [req] })
  | none =>
    match env.httpDo w.net req with
    | (.error e, n) => ((env.emptyBody, some e), { w with net := n, calls := w.calls ++ [req] })
    | (.ok resp, n) => ((resp, none), { w with net := n, calls := w.calls ++ [req] })

/-- The loop of `getZoneID` over `zr.Zones`, with the `return` after it. -/
def scanZones (zonename : String) : List Zone → String × Option String
  | [] => ("", some "no zone found")
  | zone :: rest => if zone.Name = zonename then (zone.ID, none) else scanZones zonename rest

/-- Go `func getZoneID(zonename string) (string, error)`. -/
def getZoneID (env : Env σ β) (zonename : String) (w : World σ β) :
    (String × Option String) × World σ β :=
  let c : DNSClient := { Token := w.TOKEN }
  let (zrd, w1) := c.fetch env "GET" "zones" none w
  let zr := env.unmarshalZones zrd.1
  (scanZones zonename zr.Zones, w1)

/-- The loop of `checkExisting` over `rr.Records`, with the `return` after it. -/
def scanRecords (r : Record) : List RecordEntry → Bool × String
  | [] => (false, "")
  | record :: rest =>
    if record.Name = r.Name ∧ record.Type_ = r.RecordType then (true, record.ID)
    else scanRecords r rest

/-- Go `func (r Record) checkExisting() (bool, string)`. -/
def Record.checkExisting (env : Env σ β) (r : Record) (w : World σ β) :
    (Bool × String) × World σ β :=
  let c : DNSClient := { Token := w.TOKEN }
  let (data, w1) := c.fetch env "GET" ("records?zone_id=" ++ r.ZoneID) none w
  let rr := env.unmarshalRecords data.1
  (scanRecords r rr.Records, w1)

/-- The zone listing `getZoneID` decodes: the response to `GET zones`, through
`json.Unmarshal`. -/
def zoneListing (env : Env σ β) (w : World σ β) : List Zone :=
  (env.unmarshalZones
    (DNSClient.fetch env { Token := w.TOKEN } "GET" "zones" none w).1.1).Zones

/-- The record listing `checkExisting` decodes for `r`: the response to
`GET records?zone_id=<r.ZoneID>`, through `json.Unmarshal`. -/
def recordListing (env : Env σ β) (r : Record) (w : World σ β) : List RecordEntry :=
  (env.unmarshalRecords
    (DNSClient.fetch env { Token := w.TOKEN } "GET" ("records?zone_id=" ++ r.ZoneID)
      none w).1.1).Records

/-- A listed record matches `r` when name and type are both equal. -/
def Matches (r : Record) (e : RecordEntry) : Prop :=
  e.Name = r.Name ∧ e.Type_ = r.RecordType

instance (r : Record) (e : RecordEntry) : Decidable (Matches r e) := by
  unfold Matches; infer_instance

/-- Go `func (r Record) setRecord()`. -/
def Record.setRecord (env : Env σ β) (r : Record) (w : World σ β) : World σ β :=
  let c : DNSClient := { Token := w.TOKEN }
  let json := env.marshalRecord r
  let (found, w1) := r.checkExisting env w
  if found.1 then
    (c.fetch env "PUT" ("records/" ++ found.2) (some json) w1).2
  else
    (c.fetch env "POST" "records" (some json) w1).2

/-- Go `func (r Record) unsetRecord()`. -/
def Record.unsetRecord (env : Env σ β) (r : Record) (w : World σ β) :
    Outcome Unit × World σ β :=
  let c : DNSClient := { Token := w.TOKEN }
  let (found, w1) := r.checkExisting env w
  if found.1 then
    (.ok (), (c.fetch env "DELETE" ("records/" ++ found.2) none w1).2)
  else
    (.fatal "record does not exist", w1)

/-! ## `fileExists` and `main` -/

/-- What `os.Stat` answers for a path: the error is `IsNotExist`, or another error (the
`FileInfo` is nil then), or a `FileInfo` that says whether the path is a directory. -/
inductive StatResult where
  | notExist
  | otherError
  | info (isDir : Bool)
  deriving DecidableEq, Repr

/-- The operating system as `main` sees it. -/
structure OS where
  stat : String → StatResult
  readFile : String → Except String String
  getenv : String → String

/-- The flag values after `flag.Parse()`. -/
structure Flags where
  delete : Bool
  domain : String
  type : String
  value : String
  token : String
  tokenFile : String
  deriving DecidableEq, Repr

/-- Go `func fileExists(filename string) bool`; `info.IsDir()` on the nil `FileInfo` of a failed
`os.Stat` panics. -/
def fileExists (os : OS) (filename : String) : Outcome Bool :=
  match os.stat filename with
  | .notExist => .ok false
  | .otherError => .panic .nilDereference
  | .info isDir => .ok (!isDir)

/-- Token resolution, lines 171-181 of `main`, as the source is written: line 176 declares
the local variable `TOEKN` for the file content (a variable that is never read), lines 178 and
180 assign the global `TOKEN`. -/
def resolveToken (os : OS) (flags : Flags) (w : World σ β) : Outcome Unit × World σ β :=
  match fileExists os flags.tokenFile with
  | .panic p => (.panic p, w)
  | .fatal m => (.fatal m, w)
  | .ok true =>
    match os.readFile flags.tokenFile with
    | .error err => (.fatal err, w)
    | .ok content =>
      let _TOEKN := content
      (.ok (), w)
  | .ok false =>
    if goLen flags.token < 1 then
      (.ok (), { w with TOKEN := os.getenv "DNS_API_TOKEN" })
    else
      (.ok (), { w with TOKEN := flags.token })

/-- Token validation, lines 183-186 of `main`. -/
def validateToken (w : World σ β) : Outcome Unit :=
  if goLen w.TOKEN < 5 then .fatal "token seems invalid" else .ok ()

/-- Lines 188-205 of `main`: domain splitting, zone lookup and dispatch. -/
def mainAfterValidation (env : Env σ β) (flags : Flags) (w : World σ β) :
    Outcome Unit × World σ β :=
  match splitDomain flags.domain with
  | .panic p => (.panic p, w)
  | .fatal m => (.fatal m, w)
  | .ok (zone, name) =>
    match getZoneID env zone w with
    | ((_, some err), w1) => (.fatal err, w1)
    | ((zoneID, none), w1) =>
      let r : Record :=
        { Name := name, RecordType := flags.type, TTL := 10, Value := flags.value,
          ZoneID := zoneID }
      if flags.delete then
        r.unsetRecord env { w1 with stdout := w1.stdout ++ ["deleting record"] }
      else
        (.ok (), r.setRecord env { w1 with stdout := w1.stdout ++ ["installing record"] })

/-- Lines 183-205 of `main`: everything after token resolution. -/
def mainAfterToken (env : Env σ β) (flags : Flags) (w : World σ β) :
    Outcome Unit × World σ β :=
  match validateToken w with
  | .panic p => (.panic p, w)
  | .fatal m => (.fatal m, w)
  | .ok () => mainAfterValidation env flags w

/-- Go `func main()`, from the parsed flags on. -/
def main (env : Env σ β) (os : OS) (flags : Flags) (net : σ) : Outcome Unit × World σ β :=
  match resolveToken os flags (World.init net) with
  | (.panic p, w) => (.panic p, w)
  | (.fatal m, w) => (.fatal m, w)
  | (.ok (), w) => mainAfterToken env flags w

end Program

/-! ## A mock transport that stores records -/

/-- Message bodies of the mock: a JSON document is represented by the value it encodes. -/
inductive Wire where
  | text (s : String)
  | record (r : Record)
  | records (rr : RecordResponse)
  | zones (zr : ZoneResponse)
  deriving DecidableEq, Repr

/-- What the mock provider stores. -/
structure MockStore where
  zones : List Zone
  records : List RecordEntry
  deriving DecidableEq, Repr

/-- The rest of `s` after the leading characters `lead`, if `s` starts with them. -/
def stripLead : List Char → List Char → Option (List Char)
  | [], s => some s
  | _ :: _, [] => none
  | p :: ps, c :: cs => if p = c then stripLead ps cs else none

/-- The rest of the string `s` after `lead`, if `s` starts with `lead`. -/
def afterLead (lead s : String) : Option String :=
  (stripLead lead.data s.data).map String.mk

/-- An identifier longer than every stored one, hence different from all of them. -/
def freshID (records : List RecordEntry) : String :=
  String.mk (List.replicate ((records.map (fun e => e.ID.length)).sum + 1) 'r')

/-- The stored form of a posted record under the identifier `id`. -/
def entryOf (id : String) (created modified : String) (r : Record) : RecordEntry :=
  { ID := id, Type_ := r.RecordType, Name := r.Name, Value := r.Value, ZoneID := r.ZoneID,
    Created := created, Modified := modified, TTL := r.TTL }

/-- Modelled from the spec: the mock transport of the round-trip property, which is not in
the repository.  A create call (`POST records`) adds the posted record under a fresh id, an
update call (`PUT records/<id>`) replaces the record with the given id by the posted payload,
the listing for a zone (`GET records?zone_id=<zone>`) returns the stored records of that zone;
`GET zones` lists the zones, a delete call (`DELETE records/<id>`) removes the record with the
given id, and any other request fails without a change. -/
def mockHttp (st : MockStore) (req : Request Wire) : Except String Wire × MockStore :=
  if req.method = "GET" then
    if req.function = "zones" then
      (.ok (.zones { Zones := st.zones, Meta := ⟨1, 100, 1, 1, 1, st.zones.length⟩ }), st)
    else
      match afterLead "records?zone_id=" req.function with
      | some zone => (.ok (.records { Records := st.records.filter (fun e => e.ZoneID = zone) }), st)
      | none => (.error "not found", st)
  else if req.method = "POST" then
    match decide (req.function = "records"), req.body with
    | true, some (.record r) =>
      let e := entryOf (freshID st.records) "" "" r
      (.ok (.record r), { st with records := st.records ++ [e] })
    | _, _ => (.error "bad request", st)
  else if req.method = "PUT" then
    match afterLead "records/" req.function, req.body with
    | some id, some (.record r) =>
      let upd := fun (e : RecordEntry) =>
        if e.ID = id then entryOf id e.Created e.Modified r else e
      (.ok (.record r), { st with records := st.records.map upd })
    | _, _ => (.error "bad request", st)
  else if req.method = "DELETE" then
    match afterLead "records/" req.function with
    | some id => (.ok (.text ""), { st with records := st.records.filter (fun e => e.ID ≠ id) })
    | none => (.error "bad request", st)
  else (.error "method not allowed", st)

/-- A character that `net/url` counts as a control byte: below the space, or DEL. -/
def isControlChar (c : Char) : Bool :=
  decide (c.toNat < 32) || decide (c.toNat = 127)

/-- A hexadecimal digit. -/
def isHexChar (c : Char) : Bool :=
  (decide (48 ≤ c.toNat) && decide (c.toNat ≤ 57)) ||
    (decide (97 ≤ c.toNat) && decide (c.toNat ≤ 102)) ||
    (decide (65 ≤ c.toNat) && decide (c.toNat ≤ 70))

/-- A character allowed in an HTTP method: a letter, a digit or one of the 15 signs
of an HTTP token. -/
def isTokenChar (c : Char) : Bool :=
  (decide (48 ≤ c.toNat) && decide (c.toNat ≤ 57)) ||
    (decide (97 ≤ c.toNat) && decide (c.toNat ≤ 122)) ||
    (decide (65 ≤ c.toNat) && decide (c.toNat ≤ 90)) ||
    decide (c.toNat ∈ [33, 35, 36, 37, 38, 39, 42, 43, 45, 46, 94, 95, 96, 124, 126])

/-- Every `%` is followed by two hexadecimal digits (the check of `unescape` in `net/url`). -/
def escapesWellFormed : List Char → Bool
  | [] => true
  | c :: rest =>
    if c = '%' then
      match rest with
      | a :: b :: rest2 => isHexChar a && isHexChar b && escapesWellFormed rest2
      | _ => false
    else escapesWellFormed rest

/-- Go `strings.Cut` at a one-character separator: the text before its first occurrence and
the text after it; the whole text and nothing when it does not occur. -/
def cutAt (sep : Char) : List Char → List Char × List Char
  | [] => ([], [])
  | c :: rest =>
    if c = sep then ([], rest)
    else ((cutAt sep rest).1.cons c, (cutAt sep rest).2)

/-- Modelled from the Go standard library, which is not in the repository: the error of
`http.NewRequest(method, url, body)` for a URL that starts with the base
`https://dns.hetzner.com/api/v1/`, or `none` when the request is built.  The method must be
empty or an HTTP token; in `url.Parse` the part before the first `#` must not hold a control
character, and the path (up to the first `?`) and the fragment (after the first `#`) must have
well-formed `%` escapes; the query is not checked. -/
def goNewRequest (method url : String) : Option String :=
  if !(method = "" || method.data.all isTokenChar) then some "net/http: invalid method"
  else
    let beforeFragment := (cutAt '#' url.data).1
    let fragment := (cutAt '#' url.data).2
    if beforeFragment.any isControlChar then
      some "net/url: invalid control character in URL"
    else if !escapesWellFormed (cutAt '?' beforeFragment).1 then some "invalid URL escape"
    else if !escapesWellFormed fragment then some "invalid URL escape"
    else none

/-- The program's libraries over the mock, for a given behaviour `newRequest` of
`http.NewRequest`: `json.Marshal` of a record is the record, `json.Unmarshal` reads a listing
of the expected kind and leaves the zero value otherwise. -/
def mockEnvFor (newRequest : String → String → Option String) : Env MockStore Wire :=
  { newRequest := newRequest
    httpDo := mockHttp
    emptyBody := .text ""
    marshalRecord := .record
    unmarshalZones := fun b =>
      match b with
      | .zones zr => zr
      | _ => { Zones := [], Meta := ⟨0, 0, 0, 0, 0, 0⟩ }
    unmarshalRecords := fun b =>
      match b with
      | .records rr => rr
      | _ => { Records := [] } }

/-- The program's libraries over the mock, with `http.NewRequest` as in the Go library. -/
def mockEnv : Env MockStore Wire := mockEnvFor goNewRequest

/-- A zone with the given id and name, every other field at its zero value. -/
def zoneNamed (id name : String) : Zone :=
  { ID := id, Name := name, TTL := 0, Registrar := "", LegacyDNSHost := "", LegacyNs := [],
    Ns := [], Created := "", Verified := "", Modified := "", Project := "", Owner := "",
    Permission := "", ZoneType := ⟨"", "", "", none⟩, Status := "", Paused := false,
    IsSecondaryDNS := false, TxtVerification := ⟨"", ""⟩, RecordsCount := 0 }

/-- A stored record with the given id, type, name, value and zone. -/
def entryNamed (id type name value zone : String) : RecordEntry :=
  { ID := id, Type_ := type, Name := name, Value := value, ZoneID := zone, Created := "",
    Modified := "", TTL := 0 }

/-! ## Concrete inputs used to instantiate the theorems -/

/-- A provider with the zone `"example.com"` (id `"abc123"`) holding one record
`("www", "A")` with id `"rec1"`. -/
def demoStore : MockStore :=
  { zones := [zoneNamed "abc123" "example.com"],
    records := [entryNamed "rec1" "A" "www" "10.0.0.1" "abc123"] }

/-- The program state at the start of a run against `demoStore`, with a token set. -/
def demoWorld : World MockStore Wire :=
  { TOKEN := "0123456789abcdef", net := demoStore, calls := [], stdout := [] }

/-- The record `("www", "A")` of the zone `"abc123"`. -/
def demoRecord : Record :=
  { ZoneID := "abc123", RecordType := "A", Name := "www", Value := "10.0.0.2", TTL := 10 }

/-- The record `("www", "TXT")` of the zone `"abc123"`. -/
def demoTxtRecord : Record :=
  { ZoneID := "abc123", RecordType := "TXT", Name := "www", Value := "hello", TTL := 10 }

/-- An operating system in which every path is a readable file holding
`"file-token-0123456789"` and `DNS_API_TOKEN` is set to `"env-token-0123456789"`. -/
def tokenFileOS : OS :=
  { stat := fun _ => .info false
    readFile := fun _ => .ok "file-token-0123456789"
    getenv := fun name => if name = "DNS_API_TOKEN" then "env-token-0123456789" else "" }

/-- An operating system without files in which `DNS_API_TOKEN` is set to
`"env-token-0123456789"`. -/
def envOS : OS :=
  { stat := fun _ => .notExist
    readFile := fun _ => .error "no such file"
    getenv := fun name => if name = "DNS_API_TOKEN" then "env-token-0123456789" else "" }

/-- Flags of a run that installs `www.example.com` with `-token flag-token-0123456789`. -/
def demoFlags : Flags :=
  { delete := false, domain := "www.example.com", type := "A", value := "10.0.0.2",
    token := "flag-token-0123456789", tokenFile := "/tmp/dnstoken.txt" }

/-- The same run without the `-token` flag. -/
def demoFlagsNoToken : Flags := { demoFlags with token := "" }

/-- The record `demoRecord` with a line feed in its zone identifier. -/
def lineFeedRecord : Record := { demoRecord with ZoneID := "abc\n123" }

/-- The state `demoWorld` with the three-character token `"ééé"` (six bytes). -/
def accentTokenWorld : World MockStore Wire :=
  { demoWorld with TOKEN := "ééé" }

/-! ## Lemmas on the Go runtime model -/

theorem stringsJoin_eq_intercalate (l : List String) (sep : String) :
    stringsJoin l sep = sep.intercalate l := by
  have go : ∀ (rest : List String) (acc : String),
      rest.foldl (fun b s => b ++ sep ++ s) acc = String.intercalate.go acc sep rest := by
    intro rest
    induction rest with
    | nil => intro acc; rfl
    | cons x xs ih => intro acc; simp [String.intercalate.go, ih]
  match l with
  | [] => rfl
  | [e] => rfl
  | e :: x :: xs => simp [stringsJoin, String.intercalate, go]

theorem splitDots_ne_nil (cs : List Char) : splitDots cs ≠ [] := by
  induction cs with
  | nil => simp [splitDots]
  | cons c cs ih =>
    unfold splitDots
    split
    · simp
    · split <;> simp

theorem labelsOf_eq (domain : String) :
    labelsOf domain = (splitDots domain.data).map String.mk := by
  simp [labelsOf, stringsSplitDot, GoSlice.elems]

theorem labelsOf_ne_nil (domain : String) : labelsOf domain ≠ [] := by
  rw [labelsOf_eq]
  simpa using splitDots_ne_nil domain.data

theorem stringsSplitDot_eq (domain : String) :
    stringsSplitDot domain = { backing := labelsOf domain, len := (labelsOf domain).length } := by
  rw [labelsOf_eq]
  rfl

/-- With at least two labels the slicing succeeds: the zone is made of the last two
labels and the name joins all labels before them. -/
theorem splitDomain_of_two_last (domain : String) (front : List String) (a b : String)
    (h : labelsOf domain = front ++ [a, b]) :
    splitDomain domain = .ok (a ++ "." ++ b, stringsJoin front ".") := by
  have hlen : ((front ++ [a, b]).length : Int) = (front.length : Int) + 2 := by
    simp
  unfold splitDomain
  rw [stringsSplitDot_eq, h]
  simp only [GoSlice.sliceFrom, GoSlice.sliceTo, GoSlice.index, GoSlice.length, GoSlice.cap,
    GoSlice.elems, hlen]
  have e1 : (front.length : Int) + 2 - 2 = (front.length : Int) := by omega
  have e2 : (front.length : Int) + 2 - 1 = ((front.length + 1 : Nat) : Int) := by omega
  rw [e1, e2]
  have p1 : (0 : Int) ≤ (front.length : Int) + 1 := by omega
  simp [p1]

/-- With a single label the first slice expression `arr[len(arr)-2:]` panics. -/
theorem splitDomain_of_one_label (domain : String) (a : String)
    (h : labelsOf domain = [a]) :
    splitDomain domain = .panic .sliceBoundsOutOfRange := by
  unfold splitDomain
  rw [stringsSplitDot_eq, h]
  simp [GoSlice.sliceFrom, GoSlice.length]

end HetznerDNS

namespace HetznerDNS

theorem splitDots_one (cs l : List Char) (h : splitDots cs = [l]) : cs = l := by
  induction cs generalizing l with
  | nil => simpa [splitDots] using h
  | cons c cs ih =>
    unfold splitDots at h
    split at h
    · simp at h
      exact absurd h.2 (splitDots_ne_nil cs)
    · split at h
      · rename_i hnil
        exact absurd hnil (splitDots_ne_nil cs)
      · rename_i l0 ls hs
        simp at h
        obtain ⟨h1, h2⟩ := h
        subst h2
        rw [← h1, ih l0 hs]

theorem splitDots_two (cs la lb : List Char) (h : splitDots cs = [la, lb]) :
    cs = la ++ '.' :: lb := by
  induction cs generalizing la with
  | nil => simp [splitDots] at h
  | cons c cs ih =>
    unfold splitDots at h
    split at h
    · rename_i hc
      simp at h
      obtain ⟨h1, h2⟩ := h
      rw [h1, hc, splitDots_one cs lb h2]
      rfl
    · split at h
      · rename_i hnil
        exact absurd hnil (splitDots_ne_nil cs)
      · rename_i l0 ls hs
        simp at h
        obtain ⟨h1, h2⟩ := h
        subst h2
        rw [← h1, ih l0 hs]
        rfl

/-- A domain with exactly two labels is its two labels joined by a dot. -/
theorem domain_of_two_labels (domain a b : String) (h : labelsOf domain = [a, b]) :
    a ++ "." ++ b = domain := by
  rw [labelsOf_eq] at h
  match hs : splitDots domain.data, h with
  | [la, lb], h =>
    simp at h
    obtain ⟨h1, h2⟩ := h
    have := splitDots_two domain.data la lb hs
    apply String.ext
    simp [← h1, ← h2, this]

end HetznerDNS

namespace HetznerDNS

/-! ## Domain splitting: C1 and C9 -/

/-- C1: for every domain string whose split on `'.'` is a list `labels` of N >= 3 labels, the
domain splitting of `main` yields the zone made of the last two labels joined by `"."` and the
record name made of the first N-2 labels joined by `"."`. -/
theorem splitDomain_three_or_more (domain : String) (labels : List String)
    (hsplit : labelsOf domain = labels) (hN : 3 ≤ labels.length) :
    splitDomain domain =
      .ok (".".intercalate (labels.drop (labels.length - 2)),
           ".".intercalate (labels.take (labels.length - 2))) := by
  have hdrop : (labels.drop (labels.length - 2)).length = 2 := by
    rw [List.length_drop]; omega
  match hd : labels.drop (labels.length - 2), hdrop with
  | [a, b], _ =>
    have hcat : labelsOf domain = labels.take (labels.length - 2) ++ [a, b] := by
      rw [hsplit, ← hd, List.take_append_drop]
    rw [splitDomain_of_two_last domain _ a b hcat, stringsJoin_eq_intercalate]
    simp [String.intercalate, String.intercalate.go]

/-- Witness of C1 at `"www.test.example.com"`: zone `"example.com"`, name `"www.test"`. -/
theorem splitDomain_three_or_more_witness :
    splitDomain "www.test.example.com" =
      .ok (".".intercalate
             (["www", "test", "example", "com"].drop (["www", "test", "example", "com"].length - 2)),
           ".".intercalate
             (["www", "test", "example", "com"].take (["www", "test", "example", "com"].length - 2)))
      ∧ ".".intercalate
             (["www", "test", "example", "com"].drop (["www", "test", "example", "com"].length - 2))
          = "example.com"
      ∧ ".".intercalate
             (["www", "test", "example", "com"].take (["www", "test", "example", "com"].length - 2))
          = "www.test" :=
  ⟨splitDomain_three_or_more "www.test.example.com" ["www", "test", "example", "com"]
      (by decide) (by decide), by decide, by decide⟩

/-- C9 as stated fails: `"example.com"` has two labels, fewer than three, and the domain
splitting does not crash on it; it produces the zone `"example.com"` and the empty name. -/
theorem splitDomain_two_labels_no_crash :
    (labelsOf "example.com").length < 3 ∧
      splitDomain "example.com" = .ok ("example.com", "") := by
  decide

/-- C9, amended: a domain string with fewer than three labels has one label or two.  With one
label (no dot in the domain) the domain splitting panics, at the slice expression
`arr[len(arr)-2:]`; with two labels it succeeds, the zone is the whole domain and the record
name is empty. -/
theorem splitDomain_fewer_than_three (domain : String)
    (h : (labelsOf domain).length < 3) :
    ((labelsOf domain).length = 1 ∧ splitDomain domain = .panic .sliceBoundsOutOfRange) ∨
      ((labelsOf domain).length = 2 ∧ splitDomain domain = .ok (domain, "")) := by
  match hl : labelsOf domain, h with
  | [], _ => exact absurd hl (labelsOf_ne_nil domain)
  | [a], _ => exact Or.inl ⟨rfl, splitDomain_of_one_label domain a hl⟩
  | [a, b], _ =>
    refine Or.inr ⟨rfl, ?_⟩
    have := splitDomain_of_two_last domain [] a b (by simpa using hl)
    rw [this, domain_of_two_labels domain a b hl]
    rfl

/-- Witness of the amended C9 at the one-label domain `"localhost"`. -/
theorem splitDomain_fewer_than_three_witness :
    (labelsOf "localhost").length < 3 ∧
      (((labelsOf "localhost").length = 1 ∧
          splitDomain "localhost" = .panic .sliceBoundsOutOfRange) ∨
        ((labelsOf "localhost").length = 2 ∧ splitDomain "localhost" = .ok ("localhost", ""))) :=
  ⟨by decide, splitDomain_fewer_than_three "localhost" (by decide)⟩

end HetznerDNS

namespace HetznerDNS

section Lookups

variable {σ β : Type}

/-! ## Zone and record lookup: C2 and C3 -/

theorem fetch_calls (env : Env σ β) (c : DNSClient) (method function : String)
    (body : Option β) (w : World σ β) :
    (c.fetch env method function body w).2.calls =
      w.calls ++ [apiRequest c.Token method function body] ∧
    (c.fetch env method function body w).2.TOKEN = w.TOKEN ∧
    (c.fetch env method function body w).2.stdout = w.stdout := by
  unfold DNSClient.fetch
  cases hnr : env.newRequest method (apiRequest c.Token method function body).url with
  | some err => simp [hnr]
  | none =>
    rcases h : env.httpDo w.net (apiRequest c.Token method function body) with ⟨res, n⟩
    cases res <;> simp [hnr, h]

theorem scanZones_spec (zonename : String) (zones : List Zone) :
    (∃ front zone rest, zones = front ++ zone :: rest ∧ (∀ z ∈ front, z.Name ≠ zonename) ∧
        zone.Name = zonename ∧ scanZones zonename zones = (zone.ID, none)) ∨
      ((∀ z ∈ zones, z.Name ≠ zonename) ∧
        scanZones zonename zones = ("", some "no zone found")) := by
  induction zones with
  | nil => right; simp [scanZones]
  | cons z zs ih =>
    by_cases hz : z.Name = zonename
    · left
      exact ⟨[], z, zs, rfl, by simp, hz, by simp [scanZones, hz]⟩
    · rcases ih with ⟨front, zone, rest, h1, h2, h3, h4⟩ | ⟨h1, h2⟩
      · left
        refine ⟨z :: front, zone, rest, by simp [h1], ?_, h3, by simp [scanZones, hz, h4]⟩
        intro y hy
        rcases List.mem_cons.mp hy with rfl | hy
        · exact hz
        · exact h2 y hy
      · right
        refine ⟨?_, by simp [scanZones, hz, h2]⟩
        intro y hy
        rcases List.mem_cons.mp hy with rfl | hy
        · exact hz
        · exact h1 y hy

theorem scanRecords_spec (r : Record) (records : List RecordEntry) :
    (∃ front e rest, records = front ++ e :: rest ∧ (∀ x ∈ front, ¬ Matches r x) ∧
        Matches r e ∧ scanRecords r records = (true, e.ID)) ∨
      ((∀ x ∈ records, ¬ Matches r x) ∧ scanRecords r records = (false, "")) := by
  induction records with
  | nil => right; simp [scanRecords]
  | cons z zs ih =>
    by_cases hz : Matches r z
    · left
      refine ⟨[], z, zs, rfl, by simp, hz, ?_⟩
      have hz2 := hz
      unfold Matches at hz2
      simp [scanRecords, hz2]
    · have hz2 := hz
      unfold Matches at hz2
      rcases ih with ⟨front, e, rest, h1, h2, h3, h4⟩ | ⟨h1, h2⟩
      · left
        refine ⟨z :: front, e, rest, by simp [h1], ?_, h3, by simp [scanRecords, hz2, h4]⟩
        intro y hy
        rcases List.mem_cons.mp hy with rfl | hy
        · exact hz
        · exact h2 y hy
      · right
        refine ⟨?_, by simp [scanRecords, hz2, h2]⟩
        intro y hy
        rcases List.mem_cons.mp hy with rfl | hy
        · exact hz
        · exact h1 y hy

theorem scanRecords_congr (r1 r2 : Record) (hn : r1.Name = r2.Name)
    (ht : r1.RecordType = r2.RecordType) (records : List RecordEntry) :
    scanRecords r1 records = scanRecords r2 records := by
  induction records with
  | nil => rfl
  | cons e es ih => simp [scanRecords, hn, ht, ih]

theorem getZoneID_eq (env : Env σ β) (zonename : String) (w : World σ β) :
    getZoneID env zonename w =
      (scanZones zonename (zoneListing env w),
        (DNSClient.fetch env { Token := w.TOKEN } "GET" "zones" none w).2) := rfl

theorem checkExisting_eq (env : Env σ β) (r : Record) (w : World σ β) :
    r.checkExisting env w =
      (scanRecords r (recordListing env r w),
        (DNSClient.fetch env { Token := w.TOKEN } "GET" ("records?zone_id=" ++ r.ZoneID)
          none w).2) := rfl

theorem checkExisting_scan (env : Env σ β) (r : Record) (w : World σ β)
    (records : List RecordEntry) (hlist : recordListing env r w = records) :
    (∃ front e rest, records = front ++ e :: rest ∧ (∀ x ∈ front, ¬ Matches r x) ∧
        Matches r e ∧ (r.checkExisting env w).1 = (true, e.ID)) ∨
      ((∀ x ∈ records, ¬ Matches r x) ∧ (r.checkExisting env w).1 = (false, "")) := by
  rw [checkExisting_eq, hlist]
  exact scanRecords_spec r records

end Lookups

end HetznerDNS

namespace HetznerDNS

section LookupClaims

variable {σ β : Type}

/-- C2: for every decoded zone listing `zones` and every zone name, `getZoneID` returns, with
a nil error, the ID of the first zone in listing order whose `Name` equals the requested name
(string equality, so case-sensitive), and it returns the error `"no zone found"` if and only
if no zone of the listing has that name. -/
theorem getZoneID_first_match (env : Env σ β) (zonename : String) (w : World σ β)
    (zones : List Zone) (hlist : zoneListing env w = zones) :
    ((∃ front zone rest, zones = front ++ zone :: rest ∧ (∀ z ∈ front, z.Name ≠ zonename) ∧
          zone.Name = zonename ∧ (getZoneID env zonename w).1 = (zone.ID, none)) ∨
        ((∀ z ∈ zones, z.Name ≠ zonename) ∧
          (getZoneID env zonename w).1 = ("", some "no zone found"))) ∧
      ((getZoneID env zonename w).1.2 = some "no zone found" ↔
        ∀ z ∈ zones, z.Name ≠ zonename) := by
  rw [getZoneID_eq, hlist]
  have hspec := scanZones_spec zonename zones
  refine ⟨hspec, ?_⟩
  rcases hspec with ⟨front, zone, rest, h1, _, h3, h4⟩ | ⟨h1, h2⟩
  · simp only [h4]
    constructor
    · intro h; simp at h
    · intro h
      exact absurd h3 (h zone (by simp [h1]))
  · simp only [h2]
    exact ⟨fun _ => h1, fun _ => by trivial⟩

/-- Witness of C2: in a listing with the zone `"example.com"` of id `"abc123"`,
`"example.com"` resolves to `"abc123"` and `"nonexistent.com"` is not found. -/
theorem getZoneID_first_match_witness :
    (getZoneID mockEnv "example.com" demoWorld).1 = ("abc123", none) ∧
      (getZoneID mockEnv "nonexistent.com" demoWorld).1.2 = some "no zone found" := by
  have h1 := getZoneID_first_match mockEnv "example.com" demoWorld
    [zoneNamed "abc123" "example.com"] (by decide)
  have h2 := getZoneID_first_match mockEnv "nonexistent.com" demoWorld
    [zoneNamed "abc123" "example.com"] (by decide)
  refine ⟨?_, h2.2.mpr (by decide)⟩
  rcases h1.1 with ⟨front, zone, rest, e1, e2, e3, e4⟩ | ⟨e1, _⟩
  · rw [e4]
    have hz : zone ∈ [zoneNamed "abc123" "example.com"] := by rw [e1]; simp
    rw [List.mem_singleton.mp hz]
    rfl
  · exact absurd rfl (e1 (zoneNamed "abc123" "example.com") (by simp))

/-- C3: for every decoded record listing `records` of the zone of `r`, `checkExisting` returns
`(true, id)` with `id` the ID of the first listed record whose name and type both equal those of
`r`, it returns `(false, "")` if and only if no listed record matches on both, and the `Value`
and `TTL` of `r` do not influence the result. -/
theorem checkExisting_first_match (env : Env σ β) (r : Record) (w : World σ β)
    (records : List RecordEntry) (hlist : recordListing env r w = records) :
    ((∃ front e rest, records = front ++ e :: rest ∧ (∀ x ∈ front, ¬ Matches r x) ∧
          Matches r e ∧ (r.checkExisting env w).1 = (true, e.ID)) ∨
        ((∀ x ∈ records, ¬ Matches r x) ∧ (r.checkExisting env w).1 = (false, ""))) ∧
      ((r.checkExisting env w).1 = (false, "") ↔ ∀ x ∈ records, ¬ Matches r x) ∧
      (∀ (value : String) (ttl : Int),
        Record.checkExisting env { r with Value := value, TTL := ttl } w =
          r.checkExisting env w) := by
  refine ⟨?_, ?_, ?_⟩
  rotate_left 2
  · intro value ttl
    rw [checkExisting_eq, checkExisting_eq]
    have hl : recordListing env { r with Value := value, TTL := ttl } w =
        recordListing env r w := rfl
    rw [hl, scanRecords_congr { r with Value := value, TTL := ttl } r rfl rfl]
  · exact checkExisting_scan env r w records hlist
  · rcases checkExisting_scan env r w records hlist with
      ⟨front, e, rest, h1, _, h3, h4⟩ | ⟨h1, h2⟩
    · simp only [h4]
      constructor
      · intro h; simp at h
      · intro h
        exact absurd h3 (h e (by simp [h1]))
    · simp only [h2]
      exact ⟨fun _ => h1, fun _ => by trivial⟩

/-- Witness of C3: with a listed record `("www", "A")`, the check for `("www", "TXT")` returns
`(false, "")`. -/
theorem checkExisting_first_match_witness :
    (demoTxtRecord.checkExisting mockEnv demoWorld).1 = (false, "") :=
  (checkExisting_first_match mockEnv demoTxtRecord demoWorld
    [entryNamed "rec1" "A" "www" "10.0.0.1" "abc123"] (by decide)).2.1.mpr (by decide)

/-- The example of C3 evaluated: the record `("www", "A")` is found under its id, the record
`("www", "TXT")` is not. -/
theorem checkExisting_example :
    (demoRecord.checkExisting mockEnv demoWorld).1 = (true, "rec1") ∧
      (demoTxtRecord.checkExisting mockEnv demoWorld).1 = (false, "") := by
  decide

end LookupClaims

end HetznerDNS

namespace HetznerDNS

section MutatorClaims

variable {σ β : Type}

/-! ## Record mutator: C4 and C5 -/

theorem checkExisting_world (env : Env σ β) (r : Record) (w : World σ β) :
    (r.checkExisting env w).2.calls =
      w.calls ++ [apiRequest w.TOKEN "GET" ("records?zone_id=" ++ r.ZoneID) none] ∧
    (r.checkExisting env w).2.TOKEN = w.TOKEN ∧
    (r.checkExisting env w).2.stdout = w.stdout := by
  rw [checkExisting_eq]
  exact fetch_calls env { Token := w.TOKEN } "GET" ("records?zone_id=" ++ r.ZoneID) none w

theorem setRecord_eq (env : Env σ β) (r : Record) (w : World σ β) :
    r.setRecord env w =
      if (r.checkExisting env w).1.1 then
        (DNSClient.fetch env { Token := w.TOKEN } "PUT"
          ("records/" ++ (r.checkExisting env w).1.2) (some (env.marshalRecord r))
          (r.checkExisting env w).2).2
      else
        (DNSClient.fetch env { Token := w.TOKEN } "POST" "records"
          (some (env.marshalRecord r)) (r.checkExisting env w).2).2 := rfl

theorem unsetRecord_eq (env : Env σ β) (r : Record) (w : World σ β) :
    r.unsetRecord env w =
      if (r.checkExisting env w).1.1 then
        (.ok (), (DNSClient.fetch env { Token := w.TOKEN } "DELETE"
          ("records/" ++ (r.checkExisting env w).1.2) none (r.checkExisting env w).2).2)
      else
        (.fatal "record does not exist", (r.checkExisting env w).2) := rfl

/-- C4: for every record `r` and every decoded record listing, `setRecord` makes exactly one
mutating call after the listing call of the existence check.  If no listed record matches the
name and type of `r`, the calls are the listing call and one `POST` to `"records"` (no `PUT`);
if one matches, they are the listing call and one `PUT` to `"records/<id>"`, where `<id>` is the
ID `checkExisting` returns, that of the first match (no `POST`).  Both carry the marshalled
record as body. -/
theorem setRecord_one_mutation (env : Env σ β) (r : Record) (w : World σ β)
    (records : List RecordEntry) (hlist : recordListing env r w = records) :
    ((∀ x ∈ records, ¬ Matches r x) ∧ (r.checkExisting env w).1 = (false, "") ∧
        (r.setRecord env w).calls =
          w.calls ++ [apiRequest w.TOKEN "GET" ("records?zone_id=" ++ r.ZoneID) none,
            apiRequest w.TOKEN "POST" "records" (some (env.marshalRecord r))]) ∨
      (∃ front e rest, records = front ++ e :: rest ∧ (∀ x ∈ front, ¬ Matches r x) ∧
        Matches r e ∧ (r.checkExisting env w).1 = (true, e.ID) ∧
        (r.setRecord env w).calls =
          w.calls ++ [apiRequest w.TOKEN "GET" ("records?zone_id=" ++ r.ZoneID) none,
            apiRequest w.TOKEN "PUT" ("records/" ++ e.ID) (some (env.marshalRecord r))]) := by
  have hw := checkExisting_world env r w
  rcases checkExisting_scan env r w records hlist with
    ⟨front, e, rest, h1, h2, h3, h4⟩ | ⟨h1, h2⟩
  · right
    refine ⟨front, e, rest, h1, h2, h3, h4, ?_⟩
    rw [setRecord_eq, h4]
    simp only [if_true]
    rw [(fetch_calls env _ _ _ _ _).1, hw.1]
    simp
  · left
    refine ⟨h1, h2, ?_⟩
    rw [setRecord_eq, h2]
    simp only [Bool.false_eq_true, if_false]
    rw [(fetch_calls env _ _ _ _ _).1, hw.1]
    simp

/-- Witness of C4 on the mock provider: the record `("www", "A")` exists under the id
`"rec1"`, so `setRecord` lists the records and then calls `PUT records/rec1`. -/
theorem setRecord_one_mutation_witness :
    (demoRecord.setRecord mockEnv demoWorld).calls =
      [apiRequest "0123456789abcdef" "GET" "records?zone_id=abc123" none,
        apiRequest "0123456789abcdef" "PUT" "records/rec1"
          (some (Wire.record demoRecord))] := by
  rcases setRecord_one_mutation mockEnv demoRecord demoWorld
    [entryNamed "rec1" "A" "www" "10.0.0.1" "abc123"] (by decide) with
    ⟨h1, _⟩ | ⟨front, e, rest, _, _, _, h4, h5⟩
  · exact absurd (by decide) (h1 (entryNamed "rec1" "A" "www" "10.0.0.1" "abc123") (by simp))
  · have hid : e.ID = "rec1" := by
      have : (demoRecord.checkExisting mockEnv demoWorld).1 = (true, "rec1") := by decide
      rw [this] at h4
      exact (Prod.mk.inj h4).2.symm
    rw [h5, hid]
    rfl

/-- C5: for every record `r` and every decoded record listing: if no listed record matches
the name and type of `r`, `unsetRecord` stops with the fatal error `"record does not exist"`
and the only call made is the listing call (no `DELETE`); if a record matches, `unsetRecord`
returns normally after exactly one `DELETE` to `"records/<id>"`, with `<id>` the ID
`checkExisting` returns. -/
theorem unsetRecord_delete_or_fatal (env : Env σ β) (r : Record) (w : World σ β)
    (records : List RecordEntry) (hlist : recordListing env r w = records) :
    ((∀ x ∈ records, ¬ Matches r x) ∧
        (r.unsetRecord env w).1 = .fatal "record does not exist" ∧
        (r.unsetRecord env w).2.calls =
          w.calls ++ [apiRequest w.TOKEN "GET" ("records?zone_id=" ++ r.ZoneID) none]) ∨
      (∃ front e rest, records = front ++ e :: rest ∧ (∀ x ∈ front, ¬ Matches r x) ∧
        Matches r e ∧ (r.checkExisting env w).1 = (true, e.ID) ∧
        (r.unsetRecord env w).1 = .ok () ∧
        (r.unsetRecord env w).2.calls =
          w.calls ++ [apiRequest w.TOKEN "GET" ("records?zone_id=" ++ r.ZoneID) none,
            apiRequest w.TOKEN "DELETE" ("records/" ++ e.ID) none]) := by
  have hw := checkExisting_world env r w
  rcases checkExisting_scan env r w records hlist with
    ⟨front, e, rest, h1, h2, h3, h4⟩ | ⟨h1, h2⟩
  · right
    refine ⟨front, e, rest, h1, h2, h3, h4, ?_, ?_⟩
    · rw [unsetRecord_eq, h4]
      rfl
    · rw [unsetRecord_eq, h4]
      simp only [if_true]
      rw [(fetch_calls env _ _ _ _ _).1, hw.1]
      simp
  · left
    refine ⟨h1, ?_, ?_⟩
    · rw [unsetRecord_eq, h2]
      rfl
    · rw [unsetRecord_eq, h2]
      simp only [Bool.false_eq_true, if_false]
      exact hw.1

/-- Witness of C5 on the mock provider: no record `("www", "TXT")` exists, so `unsetRecord`
stops with the fatal error after the listing call alone. -/
theorem unsetRecord_delete_or_fatal_witness :
    (demoTxtRecord.unsetRecord mockEnv demoWorld).1 = .fatal "record does not exist" ∧
      (demoTxtRecord.unsetRecord mockEnv demoWorld).2.calls =
        [apiRequest "0123456789abcdef" "GET" "records?zone_id=abc123" none] := by
  rcases unsetRecord_delete_or_fatal mockEnv demoTxtRecord demoWorld
    [entryNamed "rec1" "A" "www" "10.0.0.1" "abc123"] (by decide) with
    ⟨_, h2, h3⟩ | ⟨front, e, rest, _, _, _, h4, _⟩
  · exact ⟨h2, h3⟩
  · have : (demoTxtRecord.checkExisting mockEnv demoWorld).1 = (false, "") := by decide
    rw [this] at h4
    exact absurd (Prod.mk.inj h4).1 (by decide)

end MutatorClaims

end HetznerDNS

namespace HetznerDNS

section TokenClaims

variable {σ β : Type}

/-! ## Token resolution and validation: C6, C7 and C8 -/

theorem utf8ByteSize_go_pos (c : Char) (cs : List Char) :
    0 < String.utf8ByteSize.go (c :: cs) := by
  have := Char.utf8Size_pos c
  simp only [String.utf8ByteSize.go]
  omega

/-- A Go string has length zero exactly when it is the empty string. -/
theorem goLen_lt_one_iff (s : String) : goLen s < 1 ↔ s = "" := by
  obtain ⟨l⟩ := s
  cases l with
  | nil => simp [goLen, String.utf8ByteSize, String.utf8ByteSize.go]
  | cons c cs =>
    have := utf8ByteSize_go_pos c cs
    constructor
    · intro h
      simp only [goLen, String.utf8ByteSize] at h
      omega
    · intro h
      exact absurd (congrArg String.data h) (by simp)

theorem utf8ByteSize_go_ascii (l : List Char) (h : ∀ c ∈ l, c.val ≤ 127) :
    String.utf8ByteSize.go l = l.length := by
  induction l with
  | nil => rfl
  | cons c cs ih =>
    have hc : c.utf8Size = 1 := by
      have := h c (by simp)
      simp [Char.utf8Size, this]
    simp only [String.utf8ByteSize.go, List.length_cons, hc]
    rw [ih (fun x hx => h x (by simp [hx]))]

/-- For a string of ASCII characters the number of bytes is the number of characters. -/
theorem goLen_ascii (s : String) (h : ∀ c ∈ s.data, c.val ≤ 127) :
    goLen s = (s.length : Int) := by
  obtain ⟨l⟩ := s
  simp only [goLen, String.utf8ByteSize, String.length]
  rw [utf8ByteSize_go_ascii l h]

theorem splitDomain_not_fatal (domain : String) (m : String) :
    splitDomain domain ≠ .fatal m := by
  match hl : labelsOf domain with
  | [] => exact absurd hl (labelsOf_ne_nil domain)
  | [a] => rw [splitDomain_of_one_label domain a hl]; simp
  | a :: b :: rest =>
    have hlen : 2 ≤ (a :: b :: rest).length := by simp
    have hdrop : ((a :: b :: rest).drop ((a :: b :: rest).length - 2)).length = 2 := by
      rw [List.length_drop]; omega
    match hd : (a :: b :: rest).drop ((a :: b :: rest).length - 2), hdrop with
    | [x, y], _ =>
      have hcat : labelsOf domain =
          (a :: b :: rest).take ((a :: b :: rest).length - 2) ++ [x, y] := by
        rw [hl, ← hd, List.take_append_drop]
      rw [splitDomain_of_two_last domain _ x y hcat]
      simp

theorem scanZones_error (zonename : String) (zones : List Zone) :
    (scanZones zonename zones).2 = none ∨
      (scanZones zonename zones).2 = some "no zone found" := by
  rcases scanZones_spec zonename zones with ⟨_, zone, _, _, _, _, h⟩ | ⟨_, h⟩
  · left; rw [h]
  · right; rw [h]

theorem unsetRecord_outcome (env : Env σ β) (r : Record) (w : World σ β) :
    (r.unsetRecord env w).1 = .ok () ∨
      (r.unsetRecord env w).1 = .fatal "record does not exist" := by
  rw [unsetRecord_eq]
  split
  · left; rfl
  · right; rfl

/-- After a passed validation the program never stops with the message of the validation. -/
theorem mainAfterValidation_message (env : Env σ β) (flags : Flags) (w : World σ β) :
    (mainAfterValidation env flags w).1 ≠ .fatal "token seems invalid" := by
  unfold mainAfterValidation
  split
  · simp
  · rename_i m hm
    exact absurd hm (splitDomain_not_fatal _ m)
  · rename_i zone name _
    split
    · rename_i id err w1 hz
      have herr : (getZoneID env zone w).1.2 = some err := by rw [hz]
      rw [getZoneID_eq] at herr
      rcases scanZones_error zone (zoneListing env w) with h | h
      · rw [h] at herr; simp at herr
      · rw [h] at herr
        have : err = "no zone found" := by simpa using herr.symm
        rw [this]
        show Outcome.fatal "no zone found" ≠ (Outcome.fatal "token seems invalid" : Outcome Unit)
        decide
    · split
      · intro h
        rcases unsetRecord_outcome env _ _ with h2 | h2
        · rw [h2] at h; simp at h
        · rw [h2] at h
          revert h
          decide
      · simp

end TokenClaims

end HetznerDNS

namespace HetznerDNS

/-! ## The mock transport: C10 -/

theorem stripLead_append (lead x : List Char) : stripLead lead (lead ++ x) = some x := by
  induction lead with
  | nil => cases x <;> rfl
  | cons p ps ih => simp [stripLead, ih]

theorem afterLead_append (lead x : String) : afterLead lead (lead ++ x) = some x := by
  simp [afterLead, stripLead_append]

theorem length_le_sum_lengths (records : List RecordEntry) (e : RecordEntry)
    (he : e ∈ records) : e.ID.length ≤ (records.map (fun x => x.ID.length)).sum := by
  induction records with
  | nil => simp at he
  | cons x xs ih =>
    rcases List.mem_cons.mp he with rfl | h
    · simp
    · have := ih h
      simp only [List.map_cons, List.sum_cons]
      omega

/-- The identifier the mock gives to a created record is not the one of a stored record. -/
theorem freshID_fresh (records : List RecordEntry) (e : RecordEntry) (he : e ∈ records) :
    e.ID ≠ freshID records := by
  intro h
  have hle := length_le_sum_lengths records e he
  have hfresh : (freshID records).length =
      (records.map (fun x => x.ID.length)).sum + 1 := by
    unfold freshID
    exact List.length_replicate _ _
  rw [← h] at hfresh
  omega

theorem mockHttp_list (tok zone : String) (st : MockStore) :
    mockHttp st (apiRequest tok "GET" ("records?zone_id=" ++ zone) none) =
      (.ok (.records { Records := st.records.filter (fun e => e.ZoneID = zone) }), st) := by
  have hne : "records?zone_id=" ++ zone ≠ "zones" := by
    intro h
    have := congrArg String.data h
    simp at this
  simp [mockHttp, apiRequest, hne, afterLead_append]

theorem mockHttp_post (tok : String) (r : Record) (st : MockStore) :
    mockHttp st (apiRequest tok "POST" "records" (some (.record r))) =
      (.ok (.record r),
        { st with records := st.records ++ [entryOf (freshID st.records) "" "" r] }) := by
  simp [mockHttp, apiRequest]

theorem mockHttp_put (tok id : String) (r : Record) (st : MockStore) :
    mockHttp st (apiRequest tok "PUT" ("records/" ++ id) (some (.record r))) =
      (.ok (.record r),
        { st with records := (st.records.map
            (fun e => if e.ID = id then entryOf id e.Created e.Modified r else e)) }) := by
  simp [mockHttp, apiRequest, afterLead_append]

theorem mock_fetch_accepted (nr : String → String → Option String) (c : DNSClient)
    (method function : String) (body : Option Wire) (w : World MockStore Wire)
    (hacc : nr method (apiURL function) = none) :
    (c.fetch (mockEnvFor nr) method function body w).2.net =
        (mockHttp w.net (apiRequest c.Token method function body)).2 ∧
      ∀ resp, (mockHttp w.net (apiRequest c.Token method function body)).1 = .ok resp →
        (c.fetch (mockEnvFor nr) method function body w).1.1 = resp := by
  unfold DNSClient.fetch
  have hnr : (mockEnvFor nr).newRequest method
      (apiRequest c.Token method function body).url = none := hacc
  have hdo : (mockEnvFor nr).httpDo = mockHttp := rfl
  rw [hdo]
  rcases h : mockHttp w.net (apiRequest c.Token method function body) with ⟨res, n⟩
  cases res <;> simp [hnr, h]

theorem mock_fetch_rejected (nr : String → String → Option String) (c : DNSClient)
    (method function : String) (body : Option Wire) (w : World MockStore Wire) (err : String)
    (hrej : nr method (apiURL function) = some err) :
    (c.fetch (mockEnvFor nr) method function body w).2.net = w.net := by
  unfold DNSClient.fetch
  have hnr : (mockEnvFor nr).newRequest method
      (apiRequest c.Token method function body).url = some err := hrej
  simp [hnr]

/-- When `http.NewRequest` accepts the listing request, the decoded listing is the list of
the stored records of the zone. -/
theorem mock_recordListing (nr : String → String → Option String) (r : Record)
    (w : World MockStore Wire)
    (hacc : nr "GET" (apiURL ("records?zone_id=" ++ r.ZoneID)) = none) :
    recordListing (mockEnvFor nr) r w =
      w.net.records.filter (fun e => e.ZoneID = r.ZoneID) := by
  unfold recordListing
  rw [(mock_fetch_accepted nr _ "GET" _ none w hacc).2 _
    (by rw [mockHttp_list])]
  rfl

theorem mock_checkExisting_net (nr : String → String → Option String) (r : Record)
    (w : World MockStore Wire) :
    (r.checkExisting (mockEnvFor nr) w).2.net = w.net := by
  rw [checkExisting_eq]
  cases h : nr "GET" (apiURL ("records?zone_id=" ++ r.ZoneID)) with
  | none => rw [(mock_fetch_accepted nr _ "GET" _ none w h).1, mockHttp_list]
  | some err => exact mock_fetch_rejected nr _ "GET" _ none w err h

theorem scanRecords_found (r : Record) (records : List RecordEntry)
    (h : ∃ e ∈ records, Matches r e) : (scanRecords r records).1 = true := by
  rcases scanRecords_spec r records with ⟨_, _, _, _, _, _, h4⟩ | ⟨h1, _⟩
  · rw [h4]
  · obtain ⟨e, he, hm⟩ := h
    exact absurd hm (h1 e he)

/-- The stored records after `setRecord` on the mock: when a record was found, the records
with its id are replaced if `http.NewRequest` accepts the update request and nothing changes
if it rejects it; when none was found and the create request is accepted, the new record is
appended. -/
theorem mock_setRecord_records (nr : String → String → Option String) (r : Record)
    (w : World MockStore Wire) (hcreate : nr "POST" (apiURL "records") = none) :
    (r.setRecord (mockEnvFor nr) w).net.records =
      if (r.checkExisting (mockEnvFor nr) w).1.1 then
        match nr "PUT" (apiURL ("records/" ++ (r.checkExisting (mockEnvFor nr) w).1.2)) with
        | none =>
          w.net.records.map (fun e =>
            if e.ID = (r.checkExisting (mockEnvFor nr) w).1.2 then
              entryOf (r.checkExisting (mockEnvFor nr) w).1.2 e.Created e.Modified r
            else e)
        | some _ => w.net.records
      else w.net.records ++ [entryOf (freshID w.net.records) "" "" r] := by
  rw [setRecord_eq]
  have hnet := mock_checkExisting_net nr r w
  have hm : (mockEnvFor nr).marshalRecord r = Wire.record r := rfl
  split
  · cases hput : nr "PUT"
        (apiURL ("records/" ++ (r.checkExisting (mockEnvFor nr) w).1.2)) with
    | none =>
      rw [(mock_fetch_accepted nr _ "PUT" _ _ _ hput).1, hm, mockHttp_put, hnet]
    | some err =>
      rw [mock_fetch_rejected nr _ "PUT" _ _ _ err hput, hnet]
  · rw [(mock_fetch_accepted nr _ "POST" _ _ _ hcreate).1, hm, mockHttp_post, hnet]

theorem cutAt_of_not_mem (sep : Char) (l : List Char) (h : sep ∉ l) :
    cutAt sep l = (l, []) := by
  induction l with
  | nil => rfl
  | cons c cs ih =>
    have hc : ¬ c = sep := fun e => h (by simp [e])
    have hcs : sep ∉ cs := fun e => h (by simp [e])
    simp [cutAt, hc, ih hcs]

theorem cutAt_append_fst (sep : Char) (l1 l2 : List Char) (h : sep ∈ l1) :
    (cutAt sep (l1 ++ l2)).1 = (cutAt sep l1).1 := by
  induction l1 with
  | nil => simp at h
  | cons c cs ih =>
    by_cases hc : c = sep
    · simp [cutAt, hc]
    · have hcs : sep ∈ cs := by
        rcases List.mem_cons.mp h with e | e
        · exact absurd e.symm hc
        · exact e
      simp [cutAt, hc, ih hcs]

/-- In the model of the Go library, the listing request of a zone identifier without control
character and without `#` is accepted. -/
theorem goNewRequest_listing_accepted (zone : String)
    (hzone : ∀ c ∈ zone.data, isControlChar c = false ∧ c ≠ '#') :
    goNewRequest "GET" (apiURL ("records?zone_id=" ++ zone)) = none := by
  have hdata : (apiURL ("records?zone_id=" ++ zone)).data =
      "https://dns.hetzner.com/api/v1/records?zone_id=".data ++ zone.data := by
    simp [apiURL, String.data_append]
  have hsharp : '#' ∉ "https://dns.hetzner.com/api/v1/records?zone_id=".data ++ zone.data := by
    intro hmem
    rcases List.mem_append.mp hmem with h | h
    · revert h; decide
    · exact (hzone _ h).2 rfl
  have hctl : ("https://dns.hetzner.com/api/v1/records?zone_id=".data ++ zone.data).any
      isControlChar = false := by
    rw [List.any_append]
    have h1 : "https://dns.hetzner.com/api/v1/records?zone_id=".data.any isControlChar
        = false := by decide
    have h2 : zone.data.any isControlChar = false := by
      rw [List.any_eq_false]
      intro c hc
      simp [(hzone c hc).1]
    rw [h1, h2]
    rfl
  have hpath : escapesWellFormed
      (cutAt '?' ("https://dns.hetzner.com/api/v1/records?zone_id=".data ++ zone.data)).1
        = true := by
    rw [cutAt_append_fst _ _ _ (by decide)]
    decide
  have hmethod : (!(decide ("GET" = "") || "GET".data.all isTokenChar)) = false := by decide
  unfold goNewRequest
  rw [hdata, cutAt_of_not_mem _ _ hsharp]
  simp only [hctl, hpath, hmethod]
  simp [escapesWellFormed]

/-- C10 as stated fails: for the record with the zone identifier `"abc\n123"` the URL of the
listing request holds a line feed, `http.NewRequest` rejects it, `fetch` returns `("", err)`
and `checkExisting` after `setRecord` returns `(false, "")`, although the create call has
stored the record in the mock. -/
theorem setRecord_then_checkExisting_line_feed :
    (lineFeedRecord.checkExisting mockEnv (lineFeedRecord.setRecord mockEnv demoWorld)).1
        = (false, "") ∧
      (lineFeedRecord.setRecord mockEnv demoWorld).net.records =
        demoStore.records ++ [entryOf (freshID demoStore.records) "" "" lineFeedRecord] := by
  decide

/-- C10, amended: round trip against the mock transport that stores records, for whatever
`http.NewRequest` checks: for every record `r` whose listing request
(`GET` of the URL ending in `records?zone_id=<r.ZoneID>`) is accepted by `http.NewRequest`,
the create request (`POST` of the URL ending in `records`) being accepted too, and for every
initial state of the program and of the mock, after `setRecord` has run, `checkExisting` on
the same `r` returns found = true. -/
theorem setRecord_then_checkExisting (nr : String → String → Option String) (r : Record)
    (w : World MockStore Wire)
    (hlist : nr "GET" (apiURL ("records?zone_id=" ++ r.ZoneID)) = none)
    (hcreate : nr "POST" (apiURL "records") = none) :
    (r.checkExisting (mockEnvFor nr) (r.setRecord (mockEnvFor nr) w)).1.1 = true := by
  rw [checkExisting_eq]
  apply scanRecords_found
  rw [mock_recordListing nr r _ hlist, mock_setRecord_records nr r w hcreate]
  rcases checkExisting_scan (mockEnvFor nr) r w _ (mock_recordListing nr r w hlist) with
    ⟨front, e, rest, h1, _, h3, h4⟩ | ⟨_, h2⟩
  · rw [h4]
    simp only [if_true]
    have hfil : e ∈ w.net.records.filter (fun x => x.ZoneID = r.ZoneID) := by
      rw [h1]; simp
    have hmem : e ∈ w.net.records := (List.mem_filter.mp hfil).1
    cases nr "PUT" (apiURL ("records/" ++ e.ID)) with
    | some err => exact ⟨e, hfil, h3⟩
    | none =>
      refine ⟨entryOf e.ID e.Created e.Modified r, ?_, ?_⟩
      · rw [List.mem_filter]
        refine ⟨?_, by simp [entryOf]⟩
        rw [List.mem_map]
        exact ⟨e, hmem, by simp⟩
      · simp [Matches, entryOf]
  · rw [h2]
    simp only [Bool.false_eq_true, if_false]
    refine ⟨entryOf (freshID w.net.records) "" "" r, ?_, ?_⟩
    · rw [List.mem_filter]
      exact ⟨by simp, by simp [entryOf]⟩
    · simp [Matches, entryOf]

/-- Witness of the amended C10 with `http.NewRequest` as in the Go library: the listing URL
of `demoRecord` and the create URL are accepted, and the record is found after `setRecord`. -/
theorem setRecord_then_checkExisting_witness :
    (demoRecord.checkExisting mockEnv (demoRecord.setRecord mockEnv demoWorld)).1.1 = true :=
  setRecord_then_checkExisting goNewRequest demoRecord demoWorld (by decide) (by decide)

end HetznerDNS

namespace HetznerDNS

section TokenTheorems

variable {σ β : Type}

/-- C6: the code evaluated at the failing input: a readable token file holding
`"file-token-0123456789"`, the flag `-token flag-token-0123456789` and
`DNS_API_TOKEN=env-token-0123456789`.  Line 176 assigns the content to the misspelt local
`TOEKN`, where lines 178 and 180 assign `TOKEN`; the active token after token resolution is
the empty string, which is not the content of the file, not the flag value and not the
environment value, and the run ends with `"token seems invalid"` before any call. -/
theorem token_file_failing_input :
    fileExists tokenFileOS demoFlags.tokenFile = .ok true ∧
      tokenFileOS.readFile demoFlags.tokenFile = .ok "file-token-0123456789" ∧
      (resolveToken tokenFileOS demoFlags (World.init demoStore : World MockStore Wire)).2.TOKEN
        = "" ∧
      (resolveToken tokenFileOS demoFlags (World.init demoStore : World MockStore Wire)).2.TOKEN
        ≠ "file-token-0123456789" ∧
      (resolveToken tokenFileOS demoFlags (World.init demoStore : World MockStore Wire)).2.TOKEN
        ≠ (if demoFlags.token ≠ "" then demoFlags.token
            else tokenFileOS.getenv "DNS_API_TOKEN") ∧
      (main mockEnv tokenFileOS demoFlags demoStore).1 = .fatal "token seems invalid" ∧
      (main mockEnv tokenFileOS demoFlags demoStore).2.calls.length = 0 :=
  ⟨by decide, rfl, by decide, by decide, by decide, by decide, by decide⟩

/-- The design of lines 171-181: the environment and the `-token` flag are read in the else
branches only, so with a token file that exists and is read successfully the result of token
resolution does not depend on them. -/
theorem resolveToken_file_present_env_flag_unused (os : OS) (flags : Flags) (w : World σ β)
    (content : String) (hexists : fileExists os flags.tokenFile = .ok true)
    (hread : os.readFile flags.tokenFile = .ok content)
    (getenv2 : String → String) (token2 : String) :
    resolveToken { os with getenv := getenv2 } { flags with token := token2 } w =
      resolveToken os flags w := by
  have hexists2 : fileExists { os with getenv := getenv2 }
      ({ flags with token := token2 } : Flags).tokenFile = .ok true := hexists
  have hread2 : ({ os with getenv := getenv2 } : OS).readFile
      ({ flags with token := token2 } : Flags).tokenFile = .ok content := hread
  simp only [resolveToken, hexists, hread, hexists2, hread2]

/-- C7: when the token file does not exist (`fileExists` answers false), token resolution sets
the active token to the `-token` flag value if that flag is non-empty and to the value of
`DNS_API_TOKEN` otherwise; and the environment influences the result of token resolution only
when no token flag is given and the token file does not exist: two operating systems that
differ in the environment alone give different results only in that case. -/
theorem resolveToken_file_absent (os : OS) (flags : Flags) (w : World σ β) :
    (fileExists os flags.tokenFile = .ok false →
        resolveToken os flags w =
          (.ok (), { w with TOKEN := if flags.token ≠ "" then flags.token
                                      else os.getenv "DNS_API_TOKEN" })) ∧
      (∀ getenv2 : String → String,
        resolveToken { os with getenv := getenv2 } flags w ≠ resolveToken os flags w →
          flags.token = "" ∧ fileExists os flags.tokenFile = .ok false) := by
  constructor
  · intro habsent
    by_cases hflag : flags.token = ""
    · have hlen : goLen flags.token < 1 := (goLen_lt_one_iff _).mpr hflag
      simp only [resolveToken, habsent, if_pos hlen]
      simp [hflag]
    · have hlen : ¬ goLen flags.token < 1 := fun h => hflag ((goLen_lt_one_iff _).mp h)
      simp only [resolveToken, habsent, if_neg hlen]
      simp [hflag]
  · intro getenv2 hne
    have hfe : fileExists { os with getenv := getenv2 } flags.tokenFile =
        fileExists os flags.tokenFile := rfl
    by_cases hflag : flags.token = ""
    · refine ⟨hflag, ?_⟩
      by_contra habsent
      apply hne
      unfold resolveToken
      rw [hfe]
      match hx : fileExists os flags.tokenFile with
      | .panic p => rfl
      | .fatal m => rfl
      | .ok true => rfl
      | .ok false => exact absurd hx habsent
    · exfalso
      apply hne
      have hlen : ¬ goLen flags.token < 1 := fun h => hflag ((goLen_lt_one_iff _).mp h)
      unfold resolveToken
      rw [hfe]
      match hx : fileExists os flags.tokenFile with
      | .panic p => rfl
      | .fatal m => rfl
      | .ok true => rfl
      | .ok false => simp [hlen]

/-- Witness of C7: no token file and no flag, so the token is the value of `DNS_API_TOKEN`,
and changing the environment changes the result. -/
theorem resolveToken_file_absent_witness :
    resolveToken envOS demoFlagsNoToken demoWorld =
        (.ok (), { demoWorld with TOKEN := if demoFlagsNoToken.token ≠ "" then
                                             demoFlagsNoToken.token
                                           else envOS.getenv "DNS_API_TOKEN" }) ∧
      (demoFlagsNoToken.token = "" ∧ fileExists envOS demoFlagsNoToken.tokenFile = .ok false) :=
  ⟨(resolveToken_file_absent envOS demoFlagsNoToken demoWorld).1 (by decide),
    (resolveToken_file_absent envOS demoFlagsNoToken demoWorld).2 (fun _ => "other-token")
      (fun h => absurd (congrArg (fun x => x.2.TOKEN) h) (by decide))⟩

/-- C8 as stated fails: the token `"ééé"` has three characters, fewer than five, and the
program passes the validation with it and goes on to the network requests. -/
theorem validateToken_three_characters_pass :
    accentTokenWorld.TOKEN.length < 5 ∧
      validateToken accentTokenWorld = .ok () ∧
      (mainAfterToken mockEnv demoFlags accentTokenWorld).1 = .ok () ∧
      (mainAfterToken mockEnv demoFlags accentTokenWorld).2.calls.length = 3 := by
  decide

/-- C8, amended: the driver validates the length in bytes of the resolved token (`len` of a
Go string).  With fewer than 5 bytes the program stops with the fatal error
`"token seems invalid"` in an unchanged state, before any domain splitting or call of `fetch`;
the fatal error with that message occurs only then; the validation is passed, and the program
goes on with the domain splitting, if and only if the token has at least 5 bytes.  For a token
of ASCII characters the number of bytes is the number of characters. -/
theorem mainAfterToken_validation (env : Env σ β) (flags : Flags) (w : World σ β) :
    (goLen w.TOKEN < 5 → mainAfterToken env flags w = (.fatal "token seems invalid", w)) ∧
      ((mainAfterToken env flags w).1 = .fatal "token seems invalid" ↔ goLen w.TOKEN < 5) ∧
      (validateToken w = .ok () ↔ 5 ≤ goLen w.TOKEN) ∧
      (5 ≤ goLen w.TOKEN → mainAfterToken env flags w = mainAfterValidation env flags w) ∧
      ((∀ c ∈ w.TOKEN.data, c.val ≤ 127) → goLen w.TOKEN = (w.TOKEN.length : Int)) := by
  have hshort : goLen w.TOKEN < 5 →
      mainAfterToken env flags w = (.fatal "token seems invalid", w) := by
    intro h
    simp [mainAfterToken, validateToken, h]
  have hlong : 5 ≤ goLen w.TOKEN →
      mainAfterToken env flags w = mainAfterValidation env flags w := by
    intro h
    have h2 : ¬ goLen w.TOKEN < 5 := by omega
    simp [mainAfterToken, validateToken, h2]
  refine ⟨hshort, ?_, ?_, hlong, goLen_ascii w.TOKEN⟩
  · constructor
    · intro h
      by_contra hlt
      rw [hlong (by omega)] at h
      exact mainAfterValidation_message env flags w h
    · intro h
      rw [hshort h]
  · unfold validateToken
    split
    · constructor
      · intro h; simp at h
      · intro h; omega
    · constructor
      · intro _; omega
      · intro _; rfl

/-- Witness of the amended C8: the four-byte token `"abcd"` is rejected in an unchanged
state, whatever the domain. -/
theorem mainAfterToken_validation_witness :
    mainAfterToken mockEnv demoFlags { demoWorld with TOKEN := "abcd" } =
      (.fatal "token seems invalid", { demoWorld with TOKEN := "abcd" }) :=
  (mainAfterToken_validation mockEnv demoFlags { demoWorld with TOKEN := "abcd" }).1
    (by decide)

end TokenTheorems

end HetznerDNS
